import Mathlib

/-!
# Shallow embedding of `hello-rust-osm` (`src/main.rs`)

The program reads an OSM text export line by line and builds a weighted
undirected road graph.  We embed the data model and the construction logic:

* Rust `f32` values are modelled by exact rationals `ℚ`; `isize` by `ℤ`;
  `usize` by `ℕ`.
* `HashMap<isize, _>` is modelled as a function `ℤ → Option _` with
  pointwise insertion (the maps are never iterated by the program).
* `Vec<Vec<Arc>>` is modelled as `List (List Arc)`.
* The `f32` square root inside `Point::sub` composed with the truncating
  cast `as usize` in `add_arc` is modelled exactly: the cost
  `(sqrt d2 / speed) as usize` equals `⌊√(d2 / speed²)⌋`, which we compute
  over `ℚ` with `ratFloorSqrt`.
* Fallible operations (`unwrap` on a missing map entry, `File::open`)
  return `Option` / `Except` instead of panicking.
* The line classifier (three regexes plus two `starts_with` checks) is
  abstracted into an `OsmEvent` per line; unmatched lines are `other`.
  A line the reader fails to produce (`Err` in `reader.lines()`) is kept
  as `Except.error` in the line list, mirroring the iterator of Results.
-/

/-- `Arc` from the source: a directed edge record (target internal index,
cost in whole seconds). -/
structure Arc where
  index : ℕ
  cost : ℕ
deriving DecidableEq, Repr

/-- `Point` from the source: latitude and longitude in degrees (`f32`,
modelled as `ℚ`). -/
structure Point where
  lat : ℚ
  lon : ℚ
deriving DecidableEq, Repr

/-- `KMPH` constant from the source: km/h to m/s factor `1000/3600`. -/
def KMPH : ℚ := 1000 / 3600

/-- The squared equirectangular distance from `impl Sub for Point`:
`((Δlat · 111229)² + (Δlon · 71695)²)`.  The source takes the square
root of this (`.sqrt()`); we keep the square and take the root inside
the cost computation, exactly. -/
def distSq (a b : Point) : ℚ :=
  ((a.lat - b.lat) * 111229) ^ 2 + ((a.lon - b.lon) * 71695) ^ 2

/-- `⌊√x⌋₊` for a rational `x`, computed as `Nat.sqrt ⌊x⌋₊` (for
`0 ≤ x` these agree: `m ≤ √x ↔ m² ≤ x ↔ m² ≤ ⌊x⌋₊ ↔ m ≤ Nat.sqrt ⌊x⌋₊`;
see `ratFloorSqrt_eq_natFloor_real_sqrt` below).  This models the `f32`
pipeline `(sqrt d2 / speed) as usize` of the source exactly, since
`⌊√d2 / s⌋₊ = ⌊√(d2/s²)⌋₊` for `s > 0` — and the program only ever calls
`add_arc` under its `speed_factor > 0` guard. -/
def ratFloorSqrt (x : ℚ) : ℕ :=
  Nat.sqrt ⌊x⌋₊

/-- `RoadNetwork` from the source. -/
@[ext]
structure RoadNetwork where
  osm_id_map : ℤ → Option ℕ
  nodes : ℤ → Option Point
  adjacent_arcs : List (List Arc)

namespace RoadNetwork

/-- `RoadNetwork::new`. -/
def new : RoadNetwork :=
  { osm_id_map := fun _ => none, nodes := fun _ => none, adjacent_arcs := [] }

/-- `RoadNetwork::add_node`: `self.nodes.insert(osm_id, location)` —
an unconditional overwrite. -/
def add_node (nw : RoadNetwork) (osm_id : ℤ) (location : Point) : RoadNetwork :=
  { nw with nodes := fun x => if x = osm_id then some location else nw.nodes x }

/-- `RoadNetwork::get_index`. -/
def get_index (nw : RoadNetwork) (osm_id : ℤ) : Option ℕ :=
  nw.osm_id_map osm_id

/-- `RoadNetwork::get_or_create_index`: return the existing index, or
assign the next dense index (`adjacent_arcs.len()`), pushing a fresh
empty adjacency list. -/
def get_or_create_index (nw : RoadNetwork) (osm_id : ℤ) : ℕ × RoadNetwork :=
  match nw.get_index osm_id with
  | some index => (index, nw)
  | none =>
    let index := nw.adjacent_arcs.length
    (index,
      { nw with
        adjacent_arcs := nw.adjacent_arcs ++ [[]],
        osm_id_map := fun x => if x = osm_id then some index else nw.osm_id_map x })

/-- `RoadNetwork::distance`, up to squaring: the source `unwrap`s both map
lookups (panic on a missing entry ⇒ `none` here) and returns the
equirectangular distance; we return its square (exact in `ℚ`). -/
def distanceSq (nw : RoadNetwork) (osm_id_a osm_id_b : ℤ) : Option ℚ :=
  match nw.nodes osm_id_a, nw.nodes osm_id_b with
  | some location_a, some location_b => some (distSq location_a location_b)
  | _, _ => none

/-- `RoadNetwork::_push_arc_at_index`: append `arc` to the adjacency list
at `index` (always called with `index < length`). -/
def push_arc_at_index (nw : RoadNetwork) (index : ℕ) (arc : Arc) : RoadNetwork :=
  { nw with
    adjacent_arcs :=
      nw.adjacent_arcs.set index ((nw.adjacent_arcs.getD index []) ++ [arc]) }

/-- `RoadNetwork::add_arc`: compute the cost
`(distance / speed_factor) as usize` — i.e. `⌊√(d2) / speed⌋ = ⌊√(d2/speed²)⌋`
— then resolve/create both indices and push the forward and the reverse
arc with the same cost.  The distance lookup happens first; if either
endpoint has no recorded coordinate the operation fails (source: panic)
before any state is touched. -/
def add_arc (nw : RoadNetwork) (osm_id_a osm_id_b : ℤ) (speed_factor : ℚ) :
    Option RoadNetwork :=
  match nw.distanceSq osm_id_a osm_id_b with
  | none => none
  | some d2 =>
    let cost := ratFloorSqrt (d2 / speed_factor ^ 2)
    let r_a := nw.get_or_create_index osm_id_a
    let r_b := r_a.2.get_or_create_index osm_id_b
    some ((r_b.2.push_arc_at_index r_a.1 ⟨r_b.1, cost⟩).push_arc_at_index r_b.1 ⟨r_a.1, cost⟩)

end RoadNetwork

/-- One classified input line.  The source classifies each line with
three regexes and two `starts_with` tests; lines matching none of them
are inert (`other`). -/
inductive OsmEvent where
  | pointDeclared (id : ℤ) (location : Point)
  | segmentStart
  | hopReference (id : ℤ)
  | roadClassTag (category : String)
  | segmentEnd
  | other
deriving DecidableEq, Repr

/-- The fixed road-category → speed (km/h) table from the `match` in
`read_from_osm_file`; unlisted categories fall to the `&_` arm. -/
def speedTable (category : String) : Option ℚ :=
  match category with
  | "motorway" => some 110
  | "trunk" => some 110
  | "primary" => some 70
  | "secondary" => some 60
  | "tertiary" => some 50
  | "motorway_link" => some 50
  | "trunk_link" => some 50
  | "primary_link" => some 50
  | "secondary_link" => some 50
  | "road" => some 40
  | "unclassified" => some 40
  | "residential" => some 30
  | "unsurfaced" => some 30
  | "living_street" => some 10
  | "service" => some 5
  | _ => none

/-- Transient per-segment state of the read loop: `hops`, `is_way`,
`is_highway`, `speed_factor` (mutable locals of `read_from_osm_file`). -/
structure LoopState where
  hops : List ℤ
  is_way : Bool
  is_highway : Bool
  speed_factor : ℚ
deriving DecidableEq, Repr

/-- Initial values of the read-loop locals. -/
def initState : LoopState :=
  { hops := [], is_way := false, is_highway := false, speed_factor := 0 }

/-- Errors the run can surface: a failed `File::open` (`?` propagation)
or a dangling reference (the source panics on the `unwrap` inside
`distance`). -/
inductive RunError where
  | ioError
  | danglingReference
deriving DecidableEq, Repr

/-- The `</way` edge loop of `read_from_osm_file`:
`previous = 0; for hop in hops { if previous > 0 { add_arc(hop, previous) }; previous = hop }`. -/
def addEdges (nw : RoadNetwork) (previous : ℤ) (hops : List ℤ) (speed_factor : ℚ) :
    Option RoadNetwork :=
  match hops with
  | [] => some nw
  | hop :: rest =>
    if 0 < previous then
      match nw.add_arc hop previous speed_factor with
      | some nw1 => addEdges nw1 hop rest speed_factor
      | none => none
    else
      addEdges nw hop rest speed_factor

/-- The body of the read loop for one successfully read line, already
classified.  Mirrors the `if`/`else if` chain: the node regex is tried
first in either state; `<way ` resets `hops` and the flags (but not
`speed_factor`); the remaining three classifications only fire when
`is_way` is set. -/
def handleEvent (nw : RoadNetwork) (st : LoopState) :
    OsmEvent → Except RunError (RoadNetwork × LoopState)
  | .pointDeclared id location => .ok (nw.add_node id location, st)
  | .segmentStart =>
    .ok (nw, { hops := [], is_way := true, is_highway := false,
               speed_factor := st.speed_factor })
  | .hopReference id =>
    if st.is_way then .ok (nw, { st with hops := st.hops ++ [id] })
    else .ok (nw, st)
  | .roadClassTag category =>
    if st.is_way then
      match speedTable category with
      | some v =>
        .ok (nw, { st with is_highway := true, speed_factor := KMPH * v })
      | none =>
        .ok (nw, { st with is_highway := false, speed_factor := KMPH * 0 })
    else .ok (nw, st)
  | .segmentEnd =>
    if st.is_way then
      if st.is_highway = true ∧ 0 < st.speed_factor then
        match addEdges nw 0 st.hops st.speed_factor with
        | some nw1 => .ok (nw1, { st with is_way := false })
        | none => .error .danglingReference
      else .ok (nw, { st with is_way := false })
    else .ok (nw, st)
  | .other => .ok (nw, st)

/-- The `for line in reader.lines()` loop: an `Err` line is skipped by
the `if let Ok(line) = line` and processing continues with the next
line.  Returns the network together with the final values of the loop
locals (which the source simply drops when the loop ends). -/
def runLines (nw : RoadNetwork) (st : LoopState) :
    List (Except RunError OsmEvent) → Except RunError (RoadNetwork × LoopState)
  | [] => .ok (nw, st)
  | (.error _) :: rest => runLines nw st rest
  | (.ok ev) :: rest =>
    match handleEvent nw st ev with
    | .ok (nw1, st1) => runLines nw1 st1 rest
    | .error e => .error e

/-- `RoadNetwork::read_from_osm_file`: `File::open(filename)?` aborts the
run on an I/O failure; otherwise the line loop runs from the initial
locals. -/
def read_from_osm_file (nw : RoadNetwork)
    (file : Except RunError (List (Except RunError OsmEvent))) :
    Except RunError RoadNetwork :=
  match file with
  | .error _ => .error .ioError
  | .ok lines => (runLines nw initState lines).map Prod.fst

/-! ## Predicates and auxiliary data for the claims -/

/-- Arc symmetry: every arc `(i → arc.index, arc.cost)` stored in the
adjacency structure has a matching reverse arc with the same cost. -/
def ArcSymm (nw : RoadNetwork) : Prop :=
  ∀ i arc, arc ∈ nw.adjacent_arcs.getD i [] →
    (⟨i, arc.cost⟩ : Arc) ∈ nw.adjacent_arcs.getD arc.index []

/-- Every assigned internal index points inside the adjacency vector
(the basic well-formedness that `get_or_create_index` maintains). -/
def MapBounded (nw : RoadNetwork) : Prop :=
  ∀ a i, nw.osm_id_map a = some i → i < nw.adjacent_arcs.length

/-- The C3 index-map invariant: the external-id → internal-index mapping
is injective, and its set of values is exactly `[0, len adjacent_arcs)`. -/
def IndexInvariant (nw : RoadNetwork) : Prop :=
  (∀ a b i, nw.osm_id_map a = some i → nw.osm_id_map b = some i → a = b) ∧
  (∀ i, i < nw.adjacent_arcs.length ↔ ∃ a, nw.osm_id_map a = some i)

/-- Total number of arcs stored in the network. -/
def arcCount (nw : RoadNetwork) : ℕ :=
  (nw.adjacent_arcs.map List.length).sum

/-- States reachable from the empty network by the three mutating
operations (`add_node`, `get_or_create_index`, completed `add_arc`). -/
inductive Reachable : RoadNetwork → Prop
  | new : Reachable RoadNetwork.new
  | add_node (nw : RoadNetwork) (id : ℤ) (p : Point) :
      Reachable nw → Reachable (nw.add_node id p)
  | get_or_create_index (nw : RoadNetwork) (id : ℤ) :
      Reachable nw → Reachable (nw.get_or_create_index id).2
  | add_arc (nw nw' : RoadNetwork) (a b : ℤ) (s : ℚ) :
      Reachable nw → nw.add_arc a b s = some nw' → Reachable nw'

/-- Network part of a run result (`none` when the run aborted). -/
def netOf (r : Except RunError (RoadNetwork × LoopState)) : Option RoadNetwork :=
  match r with
  | .ok (nw, _) => some nw
  | .error _ => none

/-- Loop-state part of a run result (`none` when the run aborted). -/
def stateOf (r : Except RunError (RoadNetwork × LoopState)) : Option LoopState :=
  match r with
  | .ok (_, st) => some st
  | .error _ => none

/-- Adjacency structure of a completed `read_from_osm_file` result. -/
def arcsOf (r : Except RunError RoadNetwork) : Option (List (List Arc)) :=
  match r with
  | .ok nw => some nw.adjacent_arcs
  | .error _ => none

/-- Index-map lookup in a completed `read_from_osm_file` result. -/
def indexOf (r : Except RunError RoadNetwork) (id : ℤ) : Option (Option ℕ) :=
  match r with
  | .ok nw => some (nw.osm_id_map id)
  | .error _ => none

/-- Node lookup in a completed `read_from_osm_file` result. -/
def nodeOf (r : Except RunError RoadNetwork) (id : ℤ) : Option (Option Point) :=
  match r with
  | .ok nw => some (nw.nodes id)
  | .error _ => none

/-- C7's concrete scenario: points `1 ↦ (49, 6)` and `2 ↦ (49, 6.001)`,
then one segment with hops `[1, 2]` tagged `residential`. -/
def inputC7 : List (Except RunError OsmEvent) :=
  [.ok (.pointDeclared 1 ⟨49, 6⟩),
   .ok (.pointDeclared 2 ⟨49, 6001/1000⟩),
   .ok .segmentStart,
   .ok (.hopReference 1),
   .ok (.hopReference 2),
   .ok (.roadClassTag "residential"),
   .ok .segmentEnd]

/-- The network produced by `inputC7`: id 2 receives index 0 (it is the
`osm_id_a` of the single `add_arc` call), id 1 receives index 1, and the
single symmetric arc pair has cost 8 seconds. -/
def nwC7 : RoadNetwork :=
  { osm_id_map := fun x => if x = 1 then some 1 else if x = 2 then some 0 else none,
    nodes := fun x =>
      if x = 2 then some ⟨49, 6001/1000⟩ else if x = 1 then some ⟨49, 6⟩ else none,
    adjacent_arcs := [[⟨1, 8⟩], [⟨0, 8⟩]] }

/-- C4's counterexample input: both hop ids (`0` and `1`) are declared
points and the segment is `residential`, yet no edge is produced because
the loop guard `previous > 0` treats the real id `0` as the "no previous
hop" sentinel. -/
def inputC4 : List (Except RunError OsmEvent) :=
  [.ok (.pointDeclared 0 ⟨10, 20⟩),
   .ok (.pointDeclared 1 ⟨10, 20⟩),
   .ok .segmentStart,
   .ok (.hopReference 0),
   .ok (.hopReference 1),
   .ok (.roadClassTag "residential"),
   .ok .segmentEnd]

/-- Start network for the C4 witness: two declared points, no arcs. -/
def nwC4x : RoadNetwork := (RoadNetwork.new.add_node 1 ⟨0, 0⟩).add_node 2 ⟨0, 0⟩

/-- Result network for the C4 witness: one symmetric zero-cost pair
between index(2) = 0 and index(1) = 1. -/
def nwC4w : RoadNetwork :=
  { osm_id_map := fun x => if x = 1 then some 1 else if x = 2 then some 0 else none,
    nodes := fun x => if x = 2 then some ⟨0, 0⟩ else if x = 1 then some ⟨0, 0⟩ else none,
    adjacent_arcs := [[⟨1, 0⟩], [⟨0, 0⟩]] }

/-- C5's counterexample input: a first segment sets a positive speed via
`residential`; the second `SegmentStart` then fails to reset it. -/
def inputC5 : List (Except RunError OsmEvent) :=
  [.ok .segmentStart,
   .ok (.roadClassTag "residential"),
   .ok .segmentStart]

/-- Start network for the C10 witness: one declared point, no arcs. -/
def nwC10x : RoadNetwork := RoadNetwork.new.add_node 1 ⟨0, 0⟩

/-- Result network for the C10 witness: id 1 gets index 0 and two
zero-cost self-loop arcs. -/
def nwC10w : RoadNetwork :=
  { osm_id_map := fun x => if x = 1 then some 0 else none,
    nodes := fun x => if x = 1 then some ⟨0, 0⟩ else none,
    adjacent_arcs := [[⟨0, 0⟩, ⟨0, 0⟩]] }

/-- C9's counterexample input: a valid point line, an unreadable line,
then another valid point line. -/
def inputC9 : List (Except RunError OsmEvent) :=
  [.ok (.pointDeclared 1 ⟨1, 2⟩),
   .error .ioError,
   .ok (.pointDeclared 2 ⟨3, 4⟩)]

/-! ## Claim theorems -/

/-- C1: requesting an edge between identifiers of which at least one has
no recorded coordinate fails (`add_arc` returns `none`, the embedding of
the source's panic on `unwrap`): no arc and no default-coordinate or
0-cost edge is produced. -/
theorem spec_c1 (nw : RoadNetwork) (a b : ℤ) (s : ℚ)
    (h : nw.nodes a = none ∨ nw.nodes b = none) :
    nw.add_arc a b s = none := by
  rcases h with h | h
  · simp [RoadNetwork.add_arc, RoadNetwork.distanceSq, h]
  · cases ha : nw.nodes a <;>
      simp [RoadNetwork.add_arc, RoadNetwork.distanceSq, h, ha]

/-- Witness for C1 at the empty network and ids 1, 2. -/
theorem spec_c1_witness :
    (RoadNetwork.new.nodes 1 = none ∨ RoadNetwork.new.nodes 2 = none) ∧
    RoadNetwork.new.add_arc 1 2 1 = none :=
  ⟨Or.inl rfl, spec_c1 RoadNetwork.new 1 2 1 (Or.inl rfl)⟩

/-- C5 counterexample: after `[SegmentStart, residential, SegmentStart]`
the speed local holds `25/3 ≠ 0` — `SegmentStart` does not reset it. -/
theorem spec_c5_counterexample :
    stateOf (runLines RoadNetwork.new initState inputC5) =
      some { hops := [], is_way := true, is_highway := false, speed_factor := 25/3 } ∧
    (25/3 : ℚ) ≠ 0 := by
  constructor
  · norm_num [stateOf, runLines, handleEvent, inputC5, initState, speedTable, KMPH]
  · norm_num

/-- C5 amended: `SegmentStart` resets the hop list to empty and
road-tag-seen to `false`, but leaves the speed local unchanged (it keeps
whatever value the last classification tag set). -/
theorem spec_c5 (nw : RoadNetwork) (st : LoopState) :
    handleEvent nw st .segmentStart =
      .ok (nw, { hops := [], is_way := true, is_highway := false,
                 speed_factor := st.speed_factor }) :=
  rfl

/-- C8: redeclaring a point keeps exactly the most recent coordinate,
with no error, and every subsequent distance lookup for that identifier
uses the most recent coordinate. -/
theorem spec_c8 (nw : RoadNetwork) (id : ℤ) (p1 p2 : Point) :
    ((nw.add_node id p1).add_node id p2).nodes id = some p2 ∧
    ∀ b, ((nw.add_node id p1).add_node id p2).distanceSq id b =
      (((nw.add_node id p1).add_node id p2).nodes b).map (fun pb => distSq p2 pb) := by
  refine ⟨by simp [RoadNetwork.add_node], ?_⟩
  intro b
  cases hb : ((nw.add_node id p1).add_node id p2).nodes b <;>
    simp_all [RoadNetwork.distanceSq, RoadNetwork.add_node]

/-- C9 counterexample: with an unreadable line between two point lines,
the run completes successfully and the point after the bad line is
processed — the unreadable line is silently skipped, not fatal. -/
theorem spec_c9_counterexample :
    nodeOf (read_from_osm_file RoadNetwork.new (.ok inputC9)) 2 = some (some ⟨3, 4⟩) := by
  norm_num [nodeOf, read_from_osm_file, runLines, handleEvent, inputC9, initState,
    Except.map, RoadNetwork.add_node, RoadNetwork.new]

/-- C9 amended: a failed file open is fatal with the I/O error kind and
no graph is returned; but an unreadable line after a successful open is
silently skipped and processing continues with the remaining lines. -/
theorem spec_c9 :
    (∀ (nw : RoadNetwork) (e : RunError),
      read_from_osm_file nw (.error e) = .error .ioError) ∧
    (∀ (nw : RoadNetwork) (st : LoopState) (e : RunError)
      (rest : List (Except RunError OsmEvent)),
      runLines nw st (.error e :: rest) = runLines nw st rest) :=
  ⟨fun _ _ => rfl, fun _ _ _ _ => rfl⟩

/-! ## Helper lemmas: `get_or_create_index` and `_push_arc_at_index` -/

lemma getD_append_nil (l : List (List Arc)) (j : ℕ) :
    (l ++ [([] : List Arc)]).getD j [] = l.getD j [] := by
  rcases lt_or_le j l.length with h | h
  · exact List.getD_append _ _ _ _ h
  · rw [List.getD_append_right _ _ _ _ h, List.getD_eq_default _ _ h]
    generalize j - l.length = k
    cases k <;> rfl

lemma gci_arcs_getD (nw : RoadNetwork) (a : ℤ) (j : ℕ) :
    (nw.get_or_create_index a).2.adjacent_arcs.getD j [] =
      nw.adjacent_arcs.getD j [] := by
  unfold RoadNetwork.get_or_create_index RoadNetwork.get_index
  cases h : nw.osm_id_map a
  · simp only
    exact getD_append_nil nw.adjacent_arcs j
  · rfl

lemma gci_nodes (nw : RoadNetwork) (a : ℤ) :
    (nw.get_or_create_index a).2.nodes = nw.nodes := by
  unfold RoadNetwork.get_or_create_index RoadNetwork.get_index
  cases h : nw.osm_id_map a <;> simp

lemma gci_len_le (nw : RoadNetwork) (a : ℤ) :
    nw.adjacent_arcs.length ≤ (nw.get_or_create_index a).2.adjacent_arcs.length := by
  unfold RoadNetwork.get_or_create_index RoadNetwork.get_index
  cases h : nw.osm_id_map a <;> simp

lemma gci_map_lookup (nw : RoadNetwork) (a : ℤ) :
    (nw.get_or_create_index a).2.osm_id_map a = some (nw.get_or_create_index a).1 := by
  unfold RoadNetwork.get_or_create_index RoadNetwork.get_index
  cases h : nw.osm_id_map a <;> simp [h]

lemma gci_map_preserve {nw : RoadNetwork} {k : ℤ} {i : ℕ} (a : ℤ)
    (h : nw.osm_id_map k = some i) :
    (nw.get_or_create_index a).2.osm_id_map k = some i := by
  unfold RoadNetwork.get_or_create_index RoadNetwork.get_index
  cases hm : nw.osm_id_map a with
  | some j => exact h
  | none =>
    by_cases hk : k = a
    · subst hk; rw [h] at hm; cases hm
    · simp [hk, h]

lemma gci_map_cases {nw : RoadNetwork} {k a : ℤ} {i : ℕ}
    (h : (nw.get_or_create_index a).2.osm_id_map k = some i) :
    nw.osm_id_map k = some i ∨
      (k = a ∧ nw.osm_id_map a = none ∧ i = nw.adjacent_arcs.length) := by
  unfold RoadNetwork.get_or_create_index RoadNetwork.get_index at h
  cases hm : nw.osm_id_map a with
  | some j => rw [hm] at h; exact Or.inl h
  | none =>
    rw [hm] at h
    simp only at h
    by_cases hk : k = a
    · subst hk
      simp at h
      exact Or.inr ⟨rfl, rfl, h.symm⟩
    · simp [hk] at h
      exact Or.inl h

lemma gci_fst_lt {nw : RoadNetwork} (a : ℤ) (hb : MapBounded nw) :
    (nw.get_or_create_index a).1 < (nw.get_or_create_index a).2.adjacent_arcs.length := by
  unfold RoadNetwork.get_or_create_index RoadNetwork.get_index
  cases hm : nw.osm_id_map a with
  | some j => exact hb _ _ hm
  | none => simp

lemma gci_mapBounded {nw : RoadNetwork} (a : ℤ) (hb : MapBounded nw) :
    MapBounded (nw.get_or_create_index a).2 := by
  intro k i h
  rcases gci_map_cases h with h1 | ⟨_, _, h3⟩
  · exact lt_of_lt_of_le (hb _ _ h1) (gci_len_le nw a)
  · subst h3
    unfold RoadNetwork.get_or_create_index RoadNetwork.get_index at h ⊢
    cases hm : nw.osm_id_map a with
    | some j => rw [hm] at h; exact hb _ _ h
    | none => simp

lemma push_map (nw : RoadNetwork) (i : ℕ) (x : Arc) :
    (nw.push_arc_at_index i x).osm_id_map = nw.osm_id_map := rfl

lemma push_nodes (nw : RoadNetwork) (i : ℕ) (x : Arc) :
    (nw.push_arc_at_index i x).nodes = nw.nodes := rfl

lemma push_len (nw : RoadNetwork) (i : ℕ) (x : Arc) :
    (nw.push_arc_at_index i x).adjacent_arcs.length = nw.adjacent_arcs.length := by
  simp [RoadNetwork.push_arc_at_index]

lemma push_getD (nw : RoadNetwork) (i : ℕ) (x : Arc) (j : ℕ) :
    (nw.push_arc_at_index i x).adjacent_arcs.getD j [] =
      if i = j ∧ i < nw.adjacent_arcs.length then
        nw.adjacent_arcs.getD j [] ++ [x]
      else
        nw.adjacent_arcs.getD j [] := by
  simp only [RoadNetwork.push_arc_at_index, List.getD_eq_getElem?_getD, List.getElem?_set]
  by_cases h1 : i = j
  · subst h1
    by_cases h2 : i < nw.adjacent_arcs.length <;> simp [h2]
    rw [List.getElem?_eq_none (Nat.le_of_not_lt h2)]
    rfl
  · simp [h1]

lemma push_getD_mem {nw : RoadNetwork} {arc : Arc} {j : ℕ} (i : ℕ) (x : Arc)
    (h : arc ∈ nw.adjacent_arcs.getD j []) :
    arc ∈ (nw.push_arc_at_index i x).adjacent_arcs.getD j [] := by
  rw [push_getD]
  split_ifs
  · exact List.mem_append_left _ h
  · exact h

lemma push_count_le (nw : RoadNetwork) (i : ℕ) (x a : Arc) (j : ℕ) :
    (nw.adjacent_arcs.getD j []).count a ≤
      ((nw.push_arc_at_index i x).adjacent_arcs.getD j []).count a := by
  rw [push_getD]
  split_ifs <;> simp [List.count_append]

/-! ## Helper lemmas: `add_arc` -/

lemma add_arc_some {nw nw' : RoadNetwork} {a b : ℤ} {s : ℚ}
    (h : nw.add_arc a b s = some nw') :
    ∃ d2, nw.distanceSq a b = some d2 ∧
      nw' =
        ((((nw.get_or_create_index a).2.get_or_create_index b).2.push_arc_at_index
            (nw.get_or_create_index a).1
            ⟨((nw.get_or_create_index a).2.get_or_create_index b).1,
              ratFloorSqrt (d2 / s ^ 2)⟩).push_arc_at_index
          ((nw.get_or_create_index a).2.get_or_create_index b).1
          ⟨(nw.get_or_create_index a).1, ratFloorSqrt (d2 / s ^ 2)⟩) := by
  unfold RoadNetwork.add_arc at h
  cases hd : nw.distanceSq a b with
  | none => rw [hd] at h; cases h
  | some d2 =>
    rw [hd] at h
    exact ⟨d2, rfl, (Option.some.inj h).symm⟩

lemma add_arc_nodes {nw nw' : RoadNetwork} {a b : ℤ} {s : ℚ}
    (h : nw.add_arc a b s = some nw') : nw'.nodes = nw.nodes := by
  obtain ⟨d2, -, rfl⟩ := add_arc_some h
  rw [push_nodes, push_nodes, gci_nodes, gci_nodes]

lemma add_arc_map_preserve {nw nw' : RoadNetwork} {a b : ℤ} {s : ℚ} {k : ℤ} {i : ℕ}
    (h : nw.add_arc a b s = some nw') (hk : nw.osm_id_map k = some i) :
    nw'.osm_id_map k = some i := by
  obtain ⟨d2, -, rfl⟩ := add_arc_some h
  rw [push_map, push_map]
  exact gci_map_preserve b (gci_map_preserve a hk)

lemma add_arc_len_le {nw nw' : RoadNetwork} {a b : ℤ} {s : ℚ}
    (h : nw.add_arc a b s = some nw') :
    nw.adjacent_arcs.length ≤ nw'.adjacent_arcs.length := by
  obtain ⟨d2, -, rfl⟩ := add_arc_some h
  rw [push_len, push_len]
  exact le_trans (gci_len_le nw a) (gci_len_le _ b)

lemma add_arc_mapBounded {nw nw' : RoadNetwork} {a b : ℤ} {s : ℚ}
    (hb : MapBounded nw) (h : nw.add_arc a b s = some nw') : MapBounded nw' := by
  obtain ⟨d2, -, rfl⟩ := add_arc_some h
  intro k i hk
  rw [push_map, push_map] at hk
  rw [push_len, push_len]
  exact gci_mapBounded b (gci_mapBounded a hb) _ _ hk

lemma add_arc_count_le {nw nw' : RoadNetwork} {a b : ℤ} {s : ℚ}
    (h : nw.add_arc a b s = some nw') (x : Arc) (j : ℕ) :
    (nw.adjacent_arcs.getD j []).count x ≤ (nw'.adjacent_arcs.getD j []).count x := by
  obtain ⟨d2, -, rfl⟩ := add_arc_some h
  calc (nw.adjacent_arcs.getD j []).count x
      = ((((nw.get_or_create_index a).2.get_or_create_index b).2).adjacent_arcs.getD j []).count x := by
        rw [gci_arcs_getD, gci_arcs_getD]
    _ ≤ _ := le_trans (push_count_le _ _ _ _ _) (push_count_le _ _ _ _ _)

lemma add_arc_mem_preserve {nw nw' : RoadNetwork} {a b : ℤ} {s : ℚ} {arc : Arc} {j : ℕ}
    (h : nw.add_arc a b s = some nw') (hm : arc ∈ nw.adjacent_arcs.getD j []) :
    arc ∈ nw'.adjacent_arcs.getD j [] := by
  obtain ⟨d2, -, rfl⟩ := add_arc_some h
  apply push_getD_mem
  apply push_getD_mem
  rw [gci_arcs_getD, gci_arcs_getD]
  exact hm

lemma sum_map_length_set (l : List (List Arc)) (i : ℕ) (x : Arc) (h : i < l.length) :
    ((l.set i (l.getD i [] ++ [x])).map List.length).sum =
      ((l.map List.length).sum) + 1 := by
  induction l generalizing i with
  | nil => cases h
  | cons hd tl ih =>
    cases i with
    | zero => simp [List.getD]; omega
    | succ n =>
      simp only [List.length_cons, Nat.succ_lt_succ_iff] at h
      simp only [List.set, List.getD, List.map, List.sum_cons]
      rw [show (hd :: tl).get? (n + 1) = tl.get? n from rfl] at *
      have := ih n h
      simp only [List.getD, List.getD_eq_getElem?_getD] at this ⊢
      omega

lemma arcCount_push {nw : RoadNetwork} {i : ℕ} (x : Arc)
    (h : i < nw.adjacent_arcs.length) :
    arcCount (nw.push_arc_at_index i x) = arcCount nw + 1 := by
  unfold arcCount RoadNetwork.push_arc_at_index
  exact sum_map_length_set _ _ _ h

lemma arcCount_gci (nw : RoadNetwork) (a : ℤ) :
    arcCount (nw.get_or_create_index a).2 = arcCount nw := by
  unfold RoadNetwork.get_or_create_index RoadNetwork.get_index
  cases h : nw.osm_id_map a
  · simp [arcCount]
  · rfl

lemma add_arc_arcCount {nw nw' : RoadNetwork} {a b : ℤ} {s : ℚ}
    (hb : MapBounded nw) (h : nw.add_arc a b s = some nw') :
    arcCount nw' = arcCount nw + 2 := by
  obtain ⟨d2, -, rfl⟩ := add_arc_some h
  have hb1 : MapBounded (nw.get_or_create_index a).2 := gci_mapBounded a hb
  have hb2 : MapBounded ((nw.get_or_create_index a).2.get_or_create_index b).2 :=
    gci_mapBounded b hb1
  have hlt_a : (nw.get_or_create_index a).1 <
      ((nw.get_or_create_index a).2.get_or_create_index b).2.adjacent_arcs.length :=
    lt_of_lt_of_le (gci_fst_lt a hb) (gci_len_le _ b)
  have hlt_b : ((nw.get_or_create_index a).2.get_or_create_index b).1 <
      ((nw.get_or_create_index a).2.get_or_create_index b).2.adjacent_arcs.length :=
    gci_fst_lt b hb1
  rw [arcCount_push _ (by rw [push_len]; exact hlt_b),
    arcCount_push _ hlt_a, arcCount_gci, arcCount_gci]

/-! ## Helper lemmas: symmetry preservation -/

lemma push_getD_mem_cases {nw : RoadNetwork} {i : ℕ} {x arc : Arc} {j : ℕ}
    (h : arc ∈ (nw.push_arc_at_index i x).adjacent_arcs.getD j []) :
    arc ∈ nw.adjacent_arcs.getD j [] ∨
      (arc = x ∧ j = i ∧ i < nw.adjacent_arcs.length) := by
  rw [push_getD] at h
  split_ifs at h with hc
  · rcases List.mem_append.1 h with h1 | h1
    · exact Or.inl h1
    · exact Or.inr ⟨List.mem_singleton.1 h1, hc.1.symm, hc.2⟩
  · exact Or.inl h

lemma push_getD_mem_self {nw : RoadNetwork} {i : ℕ} (x : Arc)
    (h : i < nw.adjacent_arcs.length) :
    x ∈ (nw.push_arc_at_index i x).adjacent_arcs.getD i [] := by
  rw [push_getD]
  simp [h]

lemma add_arc_arcSymm {nw nw' : RoadNetwork} {a b : ℤ} {s : ℚ}
    (hs : ArcSymm nw) (hb : MapBounded nw) (h : nw.add_arc a b s = some nw') :
    ArcSymm nw' := by
  obtain ⟨d2, -, rfl⟩ := add_arc_some h
  have hb1 : MapBounded (nw.get_or_create_index a).2 := gci_mapBounded a hb
  have hia : (nw.get_or_create_index a).1 <
      ((nw.get_or_create_index a).2.get_or_create_index b).2.adjacent_arcs.length :=
    lt_of_lt_of_le (gci_fst_lt a hb) (gci_len_le _ b)
  have hib : ((nw.get_or_create_index a).2.get_or_create_index b).1 <
      ((nw.get_or_create_index a).2.get_or_create_index b).2.adjacent_arcs.length :=
    gci_fst_lt b hb1
  intro i arc hmem
  rcases push_getD_mem_cases hmem with h1 | ⟨harc, hji, hlt⟩
  · rcases push_getD_mem_cases h1 with h2 | ⟨harc, hji, hlt2⟩
    · rw [gci_arcs_getD, gci_arcs_getD] at h2
      have h3 := hs _ _ h2
      apply push_getD_mem
      apply push_getD_mem
      rw [gci_arcs_getD, gci_arcs_getD]
      exact h3
    · subst harc
      subst hji
      simp only
      apply push_getD_mem_self
      rw [push_len]
      exact hib
  · subst harc
    subst hji
    simp only
    apply push_getD_mem
    exact push_getD_mem_self _ hia

/-! ## Helper lemmas: the read loop preserves the invariants -/

lemma addEdges_inv {s : ℚ} :
    ∀ (hops : List ℤ) (nw : RoadNetwork) (prev : ℤ) (nw' : RoadNetwork),
      ArcSymm nw → MapBounded nw → addEdges nw prev hops s = some nw' →
      ArcSymm nw' ∧ MapBounded nw'
  | [], nw, prev, nw', hs, hb, h => by
    cases h
    exact ⟨hs, hb⟩
  | hop :: rest, nw, prev, nw', hs, hb, h => by
    rw [addEdges] at h
    split_ifs at h with hp
    · cases ha : nw.add_arc hop prev s with
      | none => rw [ha] at h; cases h
      | some nw1 =>
        rw [ha] at h
        exact addEdges_inv rest nw1 hop nw'
          (add_arc_arcSymm hs hb ha) (add_arc_mapBounded hb ha) h
    · exact addEdges_inv rest nw hop nw' hs hb h

lemma handleEvent_net_cases {nw : RoadNetwork} {st : LoopState} {ev : OsmEvent}
    {nw' : RoadNetwork} {st' : LoopState}
    (h : handleEvent nw st ev = .ok (nw', st')) :
    nw' = nw ∨ (∃ id p, nw' = nw.add_node id p) ∨
      ∃ s, addEdges nw 0 st.hops s = some nw' := by
  cases ev with
  | pointDeclared id p =>
    refine Or.inr (Or.inl ⟨id, p, ?_⟩)
    simp [handleEvent] at h
    exact h.1.symm
  | segmentStart =>
    simp [handleEvent] at h
    exact Or.inl h.1.symm
  | hopReference id =>
    rw [handleEvent] at h
    split_ifs at h <;> simp at h <;> exact Or.inl h.1.symm
  | roadClassTag category =>
    rw [handleEvent] at h
    split_ifs at h
    · cases hv : speedTable category <;> rw [hv] at h <;> simp at h <;>
        exact Or.inl h.1.symm
    · simp at h
      exact Or.inl h.1.symm
  | segmentEnd =>
    rw [handleEvent] at h
    split_ifs at h with h1 h2
    · cases ha : addEdges nw 0 st.hops st.speed_factor with
      | none => rw [ha] at h; cases h
      | some nw1 =>
        rw [ha] at h
        simp at h
        exact Or.inr (Or.inr ⟨st.speed_factor, h.1 ▸ ha⟩)
    · simp at h
      exact Or.inl h.1.symm
    · simp at h
      exact Or.inl h.1.symm
  | other =>
    simp [handleEvent] at h
    exact Or.inl h.1.symm

lemma handleEvent_inv {nw : RoadNetwork} {st : LoopState} {ev : OsmEvent}
    {nw' : RoadNetwork} {st' : LoopState}
    (hs : ArcSymm nw) (hb : MapBounded nw)
    (h : handleEvent nw st ev = .ok (nw', st')) :
    ArcSymm nw' ∧ MapBounded nw' := by
  rcases handleEvent_net_cases h with rfl | ⟨id, p, rfl⟩ | ⟨s, ha⟩
  · exact ⟨hs, hb⟩
  · exact ⟨hs, hb⟩
  · exact addEdges_inv _ _ _ _ hs hb ha

lemma runLines_inv :
    ∀ (lines : List (Except RunError OsmEvent)) (nw : RoadNetwork) (st : LoopState)
      (nw' : RoadNetwork) (st' : LoopState),
      ArcSymm nw → MapBounded nw → runLines nw st lines = .ok (nw', st') →
      ArcSymm nw' ∧ MapBounded nw'
  | [], nw, st, nw', st', hs, hb, h => by
    cases h
    exact ⟨hs, hb⟩
  | (.error e) :: rest, nw, st, nw', st', hs, hb, h =>
    runLines_inv rest nw st nw' st' hs hb h
  | (.ok ev) :: rest, nw, st, nw', st', hs, hb, h => by
    rw [runLines] at h
    cases he : handleEvent nw st ev with
    | error e => rw [he] at h; cases h
    | ok p =>
      rw [he] at h
      have he2 : handleEvent nw st ev = .ok (p.1, p.2) := by rw [he]
      obtain ⟨hs1, hb1⟩ := handleEvent_inv hs hb he2
      exact runLines_inv rest p.1 p.2 nw' st' hs1 hb1 h

lemma arcSymm_new : ArcSymm RoadNetwork.new := by
  intro i arc hmem
  cases i <;> cases hmem

lemma mapBounded_new : MapBounded RoadNetwork.new := by
  intro k i h
  cases h

/-- C2: every network produced by processing an input is arc-symmetric
(each stored arc `(u → v, c)` has its reverse `(v → u, c)`), and a
completed `add_arc` on a symmetric well-formed network yields a
symmetric network (the pair is created inside the same operation). -/
theorem spec_c2 :
    (∀ (file : Except RunError (List (Except RunError OsmEvent))) (nw' : RoadNetwork),
      read_from_osm_file RoadNetwork.new file = .ok nw' → ArcSymm nw') ∧
    (∀ (nw : RoadNetwork) (a b : ℤ) (s : ℚ) (nw' : RoadNetwork),
      ArcSymm nw → MapBounded nw → nw.add_arc a b s = some nw' → ArcSymm nw') := by
  constructor
  · intro file nw' h
    cases file with
    | error e => cases h
    | ok lines =>
      simp only [read_from_osm_file] at h
      cases hr : runLines RoadNetwork.new initState lines with
      | error e => rw [hr] at h; cases h
      | ok p =>
        rw [hr] at h
        simp only [Except.map, Except.ok.injEq] at h
        subst h
        have hr2 : runLines RoadNetwork.new initState lines = .ok (p.1, p.2) := by rw [hr]
        exact (runLines_inv lines _ _ _ _ arcSymm_new mapBounded_new hr2).1
  · intro nw a b s nw' hs hb h
    exact add_arc_arcSymm hs hb h

/-- Witness for C2: the run on the empty input and the symmetry of its
result. -/
theorem spec_c2_witness : ArcSymm RoadNetwork.new :=
  spec_c2.1 (.ok []) RoadNetwork.new rfl

/-! ## Helper lemmas: the index invariant -/

lemma indexInv_push {nw : RoadNetwork} (i : ℕ) (x : Arc)
    (h : IndexInvariant nw) : IndexInvariant (nw.push_arc_at_index i x) := by
  obtain ⟨hinj, hval⟩ := h
  constructor
  · intro a b j ha hb
    rw [push_map] at ha hb
    exact hinj a b j ha hb
  · intro j
    rw [push_len, push_map]
    exact hval j

lemma gci_indexInv {nw : RoadNetwork} (a : ℤ)
    (h : IndexInvariant nw) : IndexInvariant (nw.get_or_create_index a).2 := by
  obtain ⟨hinj, hval⟩ := h
  unfold RoadNetwork.get_or_create_index RoadNetwork.get_index
  cases hm : nw.osm_id_map a with
  | some j => exact ⟨hinj, hval⟩
  | none =>
    constructor
    · intro x y i hx hy
      simp only at hx hy
      by_cases hxa : x = a <;> by_cases hya : y = a
      · rw [hxa, hya]
      · rw [if_pos hxa] at hx
        rw [if_neg hya] at hy
        have hi : i = nw.adjacent_arcs.length := by
          exact (Option.some.inj hx).symm
        subst hi
        exact absurd ((hval _).2 ⟨y, hy⟩) (lt_irrefl _)
      · rw [if_neg hxa] at hx
        rw [if_pos hya] at hy
        have hi : i = nw.adjacent_arcs.length := by
          exact (Option.some.inj hy).symm
        subst hi
        exact absurd ((hval _).2 ⟨x, hx⟩) (lt_irrefl _)
      · rw [if_neg hxa] at hx
        rw [if_neg hya] at hy
        exact hinj x y i hx hy
    · intro i
      simp only [List.length_append, List.length_cons, List.length_nil]
      constructor
      · intro hi
        rcases Nat.lt_succ_iff_lt_or_eq.1 hi with hi1 | hi1
        · obtain ⟨b, hb⟩ := (hval i).1 hi1
          refine ⟨b, ?_⟩
          have hba : ¬b = a := by
            intro hba
            rw [hba, hm] at hb
            cases hb
          simp [hba, hb]
        · exact ⟨a, by simp [hi1]⟩
      · rintro ⟨b, hb⟩
        by_cases hba : b = a
        · rw [if_pos hba] at hb
          have := (Option.some.inj hb).symm
          omega
        · rw [if_neg hba] at hb
          have := (hval i).2 ⟨b, hb⟩
          omega

lemma add_arc_indexInv {nw nw' : RoadNetwork} {a b : ℤ} {s : ℚ}
    (h : nw.add_arc a b s = some nw') (hi : IndexInvariant nw) :
    IndexInvariant nw' := by
  obtain ⟨d2, -, rfl⟩ := add_arc_some h
  exact indexInv_push _ _ (indexInv_push _ _ (gci_indexInv b (gci_indexInv a hi)))

lemma indexInv_new : IndexInvariant RoadNetwork.new := by
  constructor
  · intro a b i ha
    cases ha
  · intro i
    constructor
    · intro h
      exact absurd h (Nat.not_lt_zero i)
    · rintro ⟨b, hb⟩
      cases hb

/-- C3: in every state reachable by `add_node` / `get_or_create_index` /
`add_arc` from the empty network, the external-id → internal-index map is
injective and its values are exactly `[0, len adjacent_arcs)`; and no
operation ever reassigns an index once granted. -/
theorem spec_c3 :
    (∀ nw, Reachable nw → IndexInvariant nw) ∧
    (∀ (nw : RoadNetwork) (k : ℤ) (i : ℕ), nw.osm_id_map k = some i →
      (∀ (id : ℤ) (p : Point), (nw.add_node id p).osm_id_map k = some i) ∧
      (∀ id : ℤ, (nw.get_or_create_index id).2.osm_id_map k = some i) ∧
      (∀ (a b : ℤ) (s : ℚ) (nw' : RoadNetwork),
        nw.add_arc a b s = some nw' → nw'.osm_id_map k = some i)) := by
  constructor
  · intro nw h
    induction h with
    | new => exact indexInv_new
    | add_node nw id p _ ih => exact ih
    | get_or_create_index nw id _ ih => exact gci_indexInv id ih
    | add_arc nw nw' a b s _ ha ih => exact add_arc_indexInv ha ih
  · intro nw k i hk
    exact ⟨fun id p => hk, fun id => gci_map_preserve id hk,
      fun a b s nw' h => add_arc_map_preserve h hk⟩

/-- Witness for C3 on a small reachable state: after creating the index
for id 5 the invariant holds, and a later `get_or_create_index` for id 7
leaves the assignment `5 ↦ 0` untouched. -/
theorem spec_c3_witness :
    IndexInvariant (RoadNetwork.new.get_or_create_index 5).2 ∧
    ((RoadNetwork.new.get_or_create_index 5).2.get_or_create_index 7).2.osm_id_map 5 =
      some 0 :=
  ⟨spec_c3.1 _ (Reachable.get_or_create_index RoadNetwork.new 5 Reachable.new),
   ((spec_c3.2 (RoadNetwork.new.get_or_create_index 5).2 5 0 rfl).2.1 7)⟩

/-! ## Claim C4 -/

lemma addEdges_arcCount {s : ℚ} :
    ∀ (hops : List ℤ) (nw : RoadNetwork) (prev : ℤ) (nw' : RoadNetwork),
      MapBounded nw → addEdges nw prev hops s = some nw' →
      arcCount nw' =
        arcCount nw +
          2 * ((prev :: hops).dropLast.countP (fun x => decide (0 < x)))
  | [], nw, prev, nw', hb, h => by
    cases h
    simp
  | hop :: rest, nw, prev, nw', hb, h => by
    rw [addEdges] at h
    have hdl : (prev :: hop :: rest).dropLast = prev :: (hop :: rest).dropLast := rfl
    rw [hdl, List.countP_cons]
    split_ifs at h with hp
    · cases ha : nw.add_arc hop prev s with
      | none => rw [ha] at h; cases h
      | some nw1 =>
        rw [ha] at h
        have hrec := addEdges_arcCount rest nw1 hop nw' (add_arc_mapBounded hb ha) h
        rw [hrec, add_arc_arcCount hb ha]
        simp [hp]
        omega
    · have hrec := addEdges_arcCount rest nw hop nw' hb h
      rw [hrec]
      simp [hp]

/-- C4 counterexample: in `inputC4` both hop ids (0 and 1) are declared
points and the segment is a usable `residential` road with 2 hops, yet
the run completes with an adjacency structure containing no arc at all —
not the `n - 1 = 1` promised edge — because id 0 fails the `previous > 0`
guard. -/
theorem spec_c4_counterexample :
    arcsOf (read_from_osm_file RoadNetwork.new (.ok inputC4)) = some [] := by
  norm_num [arcsOf, read_from_osm_file, runLines, handleEvent, inputC4, initState,
    Except.map, speedTable, KMPH, addEdges, RoadNetwork.add_node, RoadNetwork.new]

/-- C4 amended: closing a usable segment adds one symmetric arc pair per
consecutive hop pair whose first element passes the `previous > 0` guard;
when every hop except possibly the last is positive, that is exactly
`n - 1` edges (`2·(n-1)` arcs) for a hop list of length `n`. -/
theorem spec_c4 (nw : RoadNetwork) (st : LoopState) (nw' : RoadNetwork) (st' : LoopState)
    (hb : MapBounded nw) (hpos : ∀ x ∈ st.hops.dropLast, 0 < x)
    (hway : st.is_way = true) (hhw : st.is_highway = true) (hsp : 0 < st.speed_factor)
    (h : handleEvent nw st .segmentEnd = .ok (nw', st')) :
    arcCount nw' = arcCount nw + 2 * (st.hops.length - 1) := by
  rw [handleEvent] at h
  rw [hway] at h
  simp only [if_true, hhw, hsp, and_self, if_pos] at h
  cases ha : addEdges nw 0 st.hops st.speed_factor with
  | none => rw [ha] at h; cases h
  | some nw1 =>
    rw [ha] at h
    simp only [Except.ok.injEq, Prod.mk.injEq] at h
    obtain ⟨rfl, -⟩ := h
    have hcnt := addEdges_arcCount st.hops nw 0 _ hb ha
    rw [hcnt]
    cases hh : st.hops with
    | nil => simp
    | cons y ys =>
      have hdl : ((0 : ℤ) :: y :: ys).dropLast = 0 :: (y :: ys).dropLast := rfl
      rw [hdl, List.countP_cons]
      have hlen := List.countP_eq_length.2 (fun a ha2 => by
        have h3 := hpos a (by rw [hh]; exact ha2)
        exact decide_eq_true h3)
      rw [hlen]
      simp [List.length_dropLast]

/-- Witness for C4: a residential segment with hops `[1, 2]` over two
declared points produces exactly one symmetric arc pair (2 arcs). -/
theorem spec_c4_witness :
    arcCount nwC4w = arcCount nwC4x + 2 * (([1, 2] : List ℤ).length - 1) :=
  spec_c4 nwC4x ⟨[1, 2], true, true, 5⟩ nwC4w ⟨[1, 2], false, true, 5⟩
    (fun a i h => by simp [nwC4x, RoadNetwork.add_node, RoadNetwork.new] at h)
    (by intro x hx; simp at hx; omega)
    rfl rfl (by norm_num)
    (by norm_num [handleEvent, addEdges, RoadNetwork.add_arc, RoadNetwork.add_node,
      RoadNetwork.distanceSq, distSq, ratFloorSqrt, RoadNetwork.get_or_create_index,
      RoadNetwork.get_index, RoadNetwork.new, RoadNetwork.push_arc_at_index,
      nwC4w, nwC4x])

/-! ## Claim C6 -/

lemma speedTable_pos {c : String} {v : ℚ} (h : speedTable c = some v) : 0 < v := by
  unfold speedTable at h
  split at h <;> cases h <;> norm_num

/-- C6: last classification tag wins.  A recognized tag followed by an
unrecognized one leaves the segment unusable (`SegmentEnd` contributes no
arcs, the network is returned unchanged); the reverse order leaves the
segment usable and `SegmentEnd` adds the edges at the recognized
category's speed. -/
theorem spec_c6 :
    (∀ (nw : RoadNetwork) (st : LoopState) (r u : String) (v : ℚ),
      st.is_way = true → speedTable r = some v → speedTable u = none →
      runLines nw st [.ok (.roadClassTag r), .ok (.roadClassTag u), .ok .segmentEnd] =
        .ok (nw, { hops := st.hops, is_way := false, is_highway := false,
                   speed_factor := KMPH * 0 })) ∧
    (∀ (nw : RoadNetwork) (st : LoopState) (u r : String) (v : ℚ) (nw1 : RoadNetwork),
      st.is_way = true → speedTable u = none → speedTable r = some v →
      addEdges nw 0 st.hops (KMPH * v) = some nw1 →
      runLines nw st [.ok (.roadClassTag u), .ok (.roadClassTag r), .ok .segmentEnd] =
        .ok (nw1, { hops := st.hops, is_way := false, is_highway := true,
                    speed_factor := KMPH * v })) := by
  constructor
  · intro nw st r u v hway hr hu
    simp [runLines, handleEvent, hway, hr, hu]
  · intro nw st u r v nw1 hway hu hr hadd
    have hpos : 0 < KMPH * v := mul_pos (by norm_num [KMPH]) (speedTable_pos hr)
    simp [runLines, handleEvent, hway, hr, hu, hadd, hpos]

/-- Witness for C6 with `residential` (recognized) and `footway`
(unrecognized) on an empty in-segment state. -/
theorem spec_c6_witness :
    runLines RoadNetwork.new ⟨[], true, false, 0⟩
        [.ok (.roadClassTag "residential"), .ok (.roadClassTag "footway"), .ok .segmentEnd] =
      .ok (RoadNetwork.new, ⟨[], false, false, KMPH * 0⟩) ∧
    runLines RoadNetwork.new ⟨[], true, false, 0⟩
        [.ok (.roadClassTag "footway"), .ok (.roadClassTag "residential"), .ok .segmentEnd] =
      .ok (RoadNetwork.new, ⟨[], false, true, KMPH * 30⟩) :=
  ⟨spec_c6.1 RoadNetwork.new ⟨[], true, false, 0⟩ "residential" "footway" 30 rfl rfl rfl,
   spec_c6.2 RoadNetwork.new ⟨[], true, false, 0⟩ "footway" "residential" 30 RoadNetwork.new
     rfl rfl rfl rfl⟩

/-! ## Claim C7 -/

/-- Faithfulness of the cost embedding: `ratFloorSqrt x` is the floor of
the real square root of `x`. -/
theorem ratFloorSqrt_eq_natFloor_real_sqrt (x : ℚ) :
    ratFloorSqrt x = ⌊Real.sqrt (x : ℝ)⌋₊ := by
  rcases le_or_lt 0 x with hx | hx
  · have key : ∀ m : ℕ, m ≤ ratFloorSqrt x ↔ m ≤ ⌊Real.sqrt (x : ℝ)⌋₊ := by
      intro m
      rw [ratFloorSqrt, Nat.le_sqrt, Nat.le_floor_iff hx,
        Nat.le_floor_iff (Real.sqrt_nonneg _),
        Real.le_sqrt (by positivity) (by exact_mod_cast hx)]
      rw [show ((m * m : ℕ) : ℚ) = (m : ℚ) ^ 2 from by push_cast; ring]
      constructor
      · intro h
        have := (Rat.cast_le (K := ℝ)).2 h
        push_cast at this ⊢
        convert this using 2
      · intro h
        have h2 : (((m : ℚ) ^ 2 : ℚ) : ℝ) ≤ ((x : ℚ) : ℝ) := by push_cast at h ⊢; exact_mod_cast h
        exact_mod_cast h2
    exact le_antisymm ((key _).1 le_rfl) ((key _).2 le_rfl)
  · rw [ratFloorSqrt, Nat.floor_of_nonpos hx.le, Nat.sqrt_zero,
      Real.sqrt_eq_zero'.2 (show ((x : ℚ) : ℝ) ≤ 0 from by exact_mod_cast hx.le),
      Nat.floor_zero]

lemma costC7 :
    ratFloorSqrt ((distSq ⟨49, 6⟩ ⟨49, 6001/1000⟩ : ℚ) / (KMPH * 30) ^ 2) = 8 := by
  rw [show ((distSq ⟨49, 6⟩ ⟨49, 6001/1000⟩ : ℚ) / (KMPH * 30) ^ 2 : ℚ) =
      1850462289 / 25000000 from by norm_num [distSq, KMPH]]
  rw [ratFloorSqrt, show ⌊(1850462289/25000000 : ℚ)⌋₊ = 74 from by
    rw [Nat.floor_eq_iff (by norm_num)]
    norm_num]
  exact (Nat.eq_sqrt.2 (by norm_num)).symm

lemma runC7 : read_from_osm_file RoadNetwork.new (.ok inputC7) = .ok nwC7 := by
  have hfl : ⌊(1850462289/25000000 : ℚ)⌋₊ = 74 := by
    rw [Nat.floor_eq_iff (by norm_num)]
    norm_num
  have hsq : Nat.sqrt 74 = 8 := (Nat.eq_sqrt.2 (by norm_num)).symm
  norm_num [read_from_osm_file, runLines, handleEvent, inputC7, initState, Except.map,
    speedTable, KMPH, addEdges, RoadNetwork.add_arc, RoadNetwork.add_node,
    RoadNetwork.distanceSq, RoadNetwork.get_or_create_index, RoadNetwork.get_index,
    RoadNetwork.new, RoadNetwork.push_arc_at_index, ratFloorSqrt, distSq, nwC7,
    hfl, hsq]

/-- C7: the concrete two-point `residential` scenario produces exactly
one symmetric arc pair between index(1) = 1 and index(2) = 0, with cost
8 seconds; and 8 is the floor of (equirectangular distance) / (30 km/h
in m/s), the distance being `√((Δlat·111229)² + (Δlon·71695)²)`. -/
theorem spec_c7 :
    read_from_osm_file RoadNetwork.new (.ok inputC7) = .ok nwC7 ∧
    nwC7.adjacent_arcs = [[⟨1, 8⟩], [⟨0, 8⟩]] ∧
    nwC7.osm_id_map 1 = some 1 ∧ nwC7.osm_id_map 2 = some 0 ∧
    ⌊Real.sqrt ((distSq ⟨49, 6⟩ ⟨49, 6001/1000⟩ : ℚ) : ℝ) / ((KMPH * 30 : ℚ) : ℝ)⌋₊ = 8 := by
  refine ⟨runC7, rfl, rfl, rfl, ?_⟩
  have hs : ((KMPH * 30 : ℚ) : ℝ) = ((25 / 3 : ℚ) : ℝ) := by norm_num [KMPH]
  have hd2 : (0 : ℚ) ≤ distSq ⟨49, 6⟩ ⟨49, 6001/1000⟩ := by unfold distSq; positivity
  have hdiv : Real.sqrt ((distSq ⟨49, 6⟩ ⟨49, 6001/1000⟩ : ℚ) : ℝ) / ((KMPH * 30 : ℚ) : ℝ) =
      Real.sqrt (((distSq ⟨49, 6⟩ ⟨49, 6001/1000⟩ : ℚ) / (KMPH * 30) ^ 2 : ℚ) : ℝ) := by
    push_cast
    rw [Real.sqrt_div (by exact_mod_cast hd2), Real.sqrt_sq (by norm_num [KMPH])]
  rw [hdiv, ← ratFloorSqrt_eq_natFloor_real_sqrt]
  exact costC7

/-! ## Claim C10 -/

lemma distSq_self (p : Point) : distSq p p = 0 := by
  simp [distSq]

lemma ratFloorSqrt_zero_div (s : ℚ) : ratFloorSqrt (0 / s ^ 2) = 0 := by
  rw [zero_div, ratFloorSqrt, Nat.floor_zero, Nat.sqrt_zero]

lemma gci_twice (nw : RoadNetwork) (k : ℤ) :
    (nw.get_or_create_index k).2.get_or_create_index k =
      ((nw.get_or_create_index k).1, (nw.get_or_create_index k).2) := by
  conv_lhs => rw [RoadNetwork.get_or_create_index]
  rw [show (nw.get_or_create_index k).2.get_index k =
    some (nw.get_or_create_index k).1 from gci_map_lookup nw k]

lemma add_arc_self {nw : RoadNetwork} {k : ℤ} {p : Point} (s : ℚ)
    (hb : MapBounded nw) (hp : nw.nodes k = some p) :
    ∃ nw', nw.add_arc k k s = some nw' ∧
      ∃ i, nw'.osm_id_map k = some i ∧
        2 ≤ (nw'.adjacent_arcs.getD i []).count (⟨i, 0⟩ : Arc) := by
  have hd : nw.distanceSq k k = some 0 := by
    simp [RoadNetwork.distanceSq, hp, distSq_self]
  refine ⟨_, by rw [RoadNetwork.add_arc, hd], ?_⟩
  rw [ratFloorSqrt_zero_div, gci_twice]
  refine ⟨(nw.get_or_create_index k).1, ?_, ?_⟩
  · rw [push_map, push_map]
    exact gci_map_lookup nw k
  · have hlt : (nw.get_or_create_index k).1 <
        (nw.get_or_create_index k).2.adjacent_arcs.length := gci_fst_lt k hb
    rw [push_getD]
    rw [if_pos ⟨rfl, by rw [push_len]; exact hlt⟩]
    rw [push_getD, if_pos ⟨rfl, hlt⟩]
    simp

lemma addEdges_mono {s : ℚ} :
    ∀ (hops : List ℤ) (nw : RoadNetwork) (prev : ℤ) (nw' : RoadNetwork),
      addEdges nw prev hops s = some nw' →
      ∀ (k : ℤ) (i : ℕ), nw.osm_id_map k = some i →
        nw'.osm_id_map k = some i ∧
        ∀ x : Arc,
          (nw.adjacent_arcs.getD i []).count x ≤ (nw'.adjacent_arcs.getD i []).count x
  | [], nw, prev, nw', h => by
    cases h
    exact fun k i hk => ⟨hk, fun x => le_refl _⟩
  | hop :: rest, nw, prev, nw', h => by
    rw [addEdges] at h
    split_ifs at h with hp
    · cases ha : nw.add_arc hop prev s with
      | none => rw [ha] at h; cases h
      | some nw1 =>
        rw [ha] at h
        intro k i hk
        obtain ⟨h1, h2⟩ := addEdges_mono rest nw1 hop nw' h k i (add_arc_map_preserve ha hk)
        exact ⟨h1, fun x => le_trans (add_arc_count_le ha x i) (h2 x)⟩
    · exact addEdges_mono rest nw hop nw' h
  termination_by hops => hops.length

lemma addEdges_selfLoop_head {s : ℚ} {k : ℤ} {p : Point} (hk : 0 < k)
    (nw : RoadNetwork) (post : List ℤ) (nw' : RoadNetwork)
    (hb : MapBounded nw) (hp : nw.nodes k = some p)
    (h : addEdges nw k (k :: post) s = some nw') :
    ∃ i, nw'.osm_id_map k = some i ∧
      2 ≤ (nw'.adjacent_arcs.getD i []).count (⟨i, 0⟩ : Arc) := by
  rw [addEdges, if_pos hk] at h
  obtain ⟨nw2, ha, i, hmap, hcnt⟩ := add_arc_self (p := p) s hb hp
  rw [ha] at h
  obtain ⟨hmap2, hcnt2⟩ := addEdges_mono post nw2 k nw' h k i hmap
  exact ⟨i, hmap2, le_trans hcnt (hcnt2 _)⟩

lemma addEdges_selfLoop {s : ℚ} {k : ℤ} {p : Point} (hk : 0 < k) :
    ∀ (pre : List ℤ) (nw : RoadNetwork) (prev : ℤ) (post : List ℤ) (nw' : RoadNetwork),
      MapBounded nw → nw.nodes k = some p →
      addEdges nw prev (pre ++ k :: k :: post) s = some nw' →
      ∃ i, nw'.osm_id_map k = some i ∧
        2 ≤ (nw'.adjacent_arcs.getD i []).count (⟨i, 0⟩ : Arc)
  | [], nw, prev, post, nw', hb, hp, h => by
    rw [List.nil_append, addEdges] at h
    split_ifs at h with hprev
    · cases ha : nw.add_arc k prev s with
      | none => rw [ha] at h; cases h
      | some nw1 =>
        rw [ha] at h
        exact addEdges_selfLoop_head hk nw1 post nw' (add_arc_mapBounded hb ha)
          (by rw [add_arc_nodes ha]; exact hp) h
    · exact addEdges_selfLoop_head hk nw post nw' hb hp h
  | q :: pre, nw, prev, post, nw', hb, hp, h => by
    rw [List.cons_append, addEdges] at h
    split_ifs at h with hprev
    · cases ha : nw.add_arc q prev s with
      | none => rw [ha] at h; cases h
      | some nw1 =>
        rw [ha] at h
        exact addEdges_selfLoop hk pre nw1 q post nw' (add_arc_mapBounded hb ha)
          (by rw [add_arc_nodes ha]; exact hp) h
    · exact addEdges_selfLoop hk pre nw q post nw' hb hp h

/-- C10: closing a usable segment whose hop list holds the same positive
declared identifier at two consecutive positions adds two zero-cost
self-loop arcs at that identifier's index (the degenerate pair is
neither rejected nor skipped). -/
theorem spec_c10 (nw : RoadNetwork) (st : LoopState) (nw' : RoadNetwork) (st' : LoopState)
    (pre post : List ℤ) (k : ℤ) (p : Point)
    (hb : MapBounded nw) (hk : 0 < k) (hp : nw.nodes k = some p)
    (hhops : st.hops = pre ++ k :: k :: post)
    (hway : st.is_way = true) (hhw : st.is_highway = true) (hsp : 0 < st.speed_factor)
    (h : handleEvent nw st .segmentEnd = .ok (nw', st')) :
    ∃ i, nw'.osm_id_map k = some i ∧
      2 ≤ (nw'.adjacent_arcs.getD i []).count (⟨i, 0⟩ : Arc) := by
  rw [handleEvent] at h
  rw [hway] at h
  simp only [if_true, hhw, hsp, and_self, if_pos] at h
  cases ha : addEdges nw 0 st.hops st.speed_factor with
  | none => rw [ha] at h; cases h
  | some nw1 =>
    rw [ha] at h
    simp only [Except.ok.injEq, Prod.mk.injEq] at h
    obtain ⟨rfl, -⟩ := h
    rw [hhops] at ha
    exact addEdges_selfLoop hk pre nw 0 post _ hb hp ha

/-- Witness for C10: a usable segment with hop list `[1, 1]` over the
single declared point id 1 yields two zero-cost self-loops at index 0. -/
theorem spec_c10_witness :
    ∃ i, nwC10w.osm_id_map 1 = some i ∧
      2 ≤ (nwC10w.adjacent_arcs.getD i []).count (⟨i, 0⟩ : Arc) :=
  spec_c10 nwC10x ⟨[1, 1], true, true, 5⟩ nwC10w ⟨[1, 1], false, true, 5⟩ [] [] 1 ⟨0, 0⟩
    (fun a i h => by simp [nwC10x, RoadNetwork.add_node, RoadNetwork.new] at h)
    (by norm_num) rfl rfl rfl rfl (by norm_num)
    (by norm_num [handleEvent, addEdges, RoadNetwork.add_arc, RoadNetwork.add_node,
      RoadNetwork.distanceSq, distSq, ratFloorSqrt, RoadNetwork.get_or_create_index,
      RoadNetwork.get_index, RoadNetwork.new, RoadNetwork.push_arc_at_index,
      nwC10w, nwC10x])
